import Mathlib

/-!
# Wearable firmware: serial command channel and I2C LCD driver

A shallow embedding of the command channel of `Core/Src/main.c`
(`HAL_UART_RxCpltCallback`, the dispatch block of `main`, `parseCommand`) and of the
driver `Core/Src/i2c-lcd.c` (`lcd_send_cmd`, `lcd_send_data`, `lcd_init`,
`lcd_send_string`, `lcd_clear`, `lcd_set_cursor`, `lcd_set_rgb`, `set_rgb_register`).

Conventions of the embedding.

* A byte (`uint8_t`, `char`) is a `Nat`; a C `int` is an `Int`.
* The globals `rx_buf`, `rx_idx`, `command_ready_flag` are the fields of `RxState`.
  The byte the HAL stored in `rx_char` before calling the callback is the callback's
  argument.  A ghost field records every write the callback makes to `rx_buf`.
* The outside world (`World`) is the I2C bus and the UART transmitter.  The bus is an
  environment: `i2c_status k` is the status the `k`-th call of
  `HAL_I2C_Master_Transmit` returns; every call is appended to `i2c_log`, failed or not.
  `uart_tx` is the stream of bytes handed to `HAL_UART_Transmit`.
* A `char *` argument that the C code reads as a string is the list of the bytes before
  its terminating NUL.  The hand-over from the raw buffer to a string happens in `main`
  (`parseCommand((char*)rx_buf)`), modelled by `cstr`.
* A read outside an array is undefined behaviour in C; a function that can make one
  returns `Option`, `none` standing for the undefined behaviour.
* `HAL_Delay` and the re-arming call `HAL_UART_Receive_IT` have no effect on the
  modelled state and are left out.
-/

namespace Firmware

/-! ## HAL types and the outside world -/

/-- The status codes of the HAL (`stm32f4xx_hal_def.h`, listed in `i2c-lcd.h`). -/
inductive HAL_StatusTypeDef where
  | HAL_OK
  | HAL_ERROR
  | HAL_BUSY
  | HAL_TIMEOUT
deriving DecidableEq, Repr

open HAL_StatusTypeDef

/-- One call of `HAL_I2C_Master_Transmit`: the device address and the bytes sent. -/
structure I2CWrite where
  DevAddress : Nat
  data : List Nat
deriving DecidableEq, Repr

/-- The I2C bus and the UART transmitter. -/
structure World where
  /-- Environment: the status returned by the `k`-th bus transmission (from 0). -/
  i2c_status : Nat → HAL_StatusTypeDef
  /-- Every bus transmission attempted so far, oldest first. -/
  i2c_log : List I2CWrite
  /-- Every byte handed to the UART transmitter so far, oldest first. -/
  uart_tx : List Nat

/-- The blocking bus write of the HAL: `Size` bytes of `pData` to `DevAddress`. -/
def HAL_I2C_Master_Transmit (w : World) (DevAddress : Nat) (pData : List Nat) (Size : Nat) :
    HAL_StatusTypeDef × World :=
  (w.i2c_status w.i2c_log.length,
    { w with i2c_log := w.i2c_log ++ [⟨DevAddress, pData.take Size⟩] })

/-- The blocking UART write of the HAL: the first `Size` bytes at `pData`. -/
def HAL_UART_Transmit (w : World) (pData : List Nat) (Size : Nat) : World :=
  { w with uart_tx := w.uart_tx ++ pData.take Size }

/-- The characters of a text as bytes. -/
def bytes (s : String) : List Nat := s.toList.map Char.toNat

/-- The memory a C string literal occupies: its characters and the terminating NUL. -/
def strLit (s : String) : List Nat := bytes s ++ [0]

/-- The string a `char *` into memory `mem` points to: the bytes before the first NUL.
`none` when the memory holds no NUL (the C string functions would read past its end). -/
def cstr : List Nat → Option (List Nat)
  | [] => none
  | c :: cs => if c = 0 then some [] else (cstr cs).map (fun t => c :: t)

/-! ## Frame receiver (`main.c`) -/

/-- The constant `RX_BUF_SIZE` of `main.c`. -/
def RX_BUF_SIZE : Nat := 100

/-- The UART peripheral a handle refers to (`huart->Instance`). -/
inductive USART_TypeDef where
  | USART2
  | otherUSART
deriving DecidableEq, Repr

/-- Ghost record of one write to `rx_buf` made by the receive callback. -/
structure RxWrite where
  idx : Int
  val : Nat
  isTerminator : Bool
deriving DecidableEq, Repr

/-- The globals shared by the receive callback and the main loop. -/
structure RxState where
  rx_buf : List Nat
  rx_idx : Int
  command_ready_flag : Nat
  /-- Ghost: the writes to `rx_buf` made by the callback so far, oldest first. -/
  writes : List RxWrite
deriving DecidableEq, Repr

/-- The state after reset: zero-initialised globals. -/
def RxState.reset : RxState :=
  { rx_buf := List.replicate RX_BUF_SIZE 0, rx_idx := 0, command_ready_flag := 0, writes := [] }

/-- The function `HAL_UART_RxCpltCallback` of `main.c`, called with the received byte in
`rx_char`.  Each store to `rx_buf[rx_idx]` is recorded in `writes` with the index as the
C code computes it, so that a store outside the array would show there. -/
def HAL_UART_RxCpltCallback (s : RxState) (Instance : USART_TypeDef) (rx_char : Nat) : RxState :=
  if Instance = USART_TypeDef.USART2 then
    if rx_char = 10 ∨ rx_char = 13 then
      if s.rx_idx > 0 then
        { s with
          rx_buf := s.rx_buf.set s.rx_idx.toNat 0
          command_ready_flag := 1
          writes := s.writes ++ [⟨s.rx_idx, 0, true⟩] }
      else s
    else
      if s.rx_idx < (RX_BUF_SIZE : Int) - 1 then
        { s with
          rx_buf := s.rx_buf.set s.rx_idx.toNat rx_char
          rx_idx := s.rx_idx + 1
          writes := s.writes ++ [⟨s.rx_idx, rx_char, false⟩] }
      else s
  else s

/-- The callback run once per received byte, in order. -/
def rxBytes (s : RxState) (Instance : USART_TypeDef) (bs : List Nat) : RxState :=
  bs.foldl (fun st b => HAL_UART_RxCpltCallback st Instance b) s


/-! ## LCD and RGB backlight driver (`i2c-lcd.c`) -/

def LCD_ADDRESS : Nat := 0x3E <<< 1
def RGB_ADDRESS : Nat := 0x62 <<< 1

def LCD_CLEARDISPLAY : Nat := 0x01
def LCD_RETURNHOME : Nat := 0x02
def LCD_ENTRYMODESET : Nat := 0x04
def LCD_DISPLAYCONTROL : Nat := 0x08
def LCD_FUNCTIONSET : Nat := 0x20
def LCD_SETDDRAMADDR : Nat := 0x80
def LCD_DISPLAYON : Nat := 0x04
def LCD_2LINE : Nat := 0x08
def LCD_5x8DOTS : Nat := 0x00

def REG_MODE1 : Nat := 0x00
def REG_MODE2 : Nat := 0x01
def REG_OUTPUT : Nat := 0x08
def REG_RED : Nat := 0x04
def REG_GREEN : Nat := 0x03
def REG_BLUE : Nat := 0x02

/-- The function `lcd_send_cmd`: one 2-byte write, control byte `0x80`, then `cmd`. -/
def lcd_send_cmd (w : World) (cmd : Nat) : HAL_StatusTypeDef × World :=
  HAL_I2C_Master_Transmit w LCD_ADDRESS [0x80, cmd] 2

/-- The function `lcd_send_data`: one 2-byte write, control byte `0x40`, then `data`. -/
def lcd_send_data (w : World) (data : Nat) : HAL_StatusTypeDef × World :=
  HAL_I2C_Master_Transmit w LCD_ADDRESS [0x40, data] 2

/-- The function `lcd_init`.  There is one bus, so the handle stored in `g_hi2c` is not
modelled. -/
def lcd_init (w : World) : HAL_StatusTypeDef × World :=
  let r1 := lcd_send_cmd w (LCD_FUNCTIONSET ||| LCD_2LINE ||| LCD_5x8DOTS)
  if r1.1 ≠ HAL_OK then r1 else
  let r2 := lcd_send_cmd r1.2 (LCD_DISPLAYCONTROL ||| LCD_DISPLAYON)
  if r2.1 ≠ HAL_OK then r2 else
  let r3 := lcd_send_cmd r2.2 LCD_CLEARDISPLAY
  if r3.1 ≠ HAL_OK then r3 else
  lcd_send_cmd r3.2 (LCD_ENTRYMODESET ||| 0x02)

/-- The function `lcd_send_string`: one data write per character, stopping after the
first write that fails. -/
def lcd_send_string (w : World) : List Nat → World
  | [] => w
  | c :: cs =>
    let r := lcd_send_data w c
    if r.1 ≠ HAL_OK then r.2 else lcd_send_string r.2 cs

/-- The function `lcd_clear`. -/
def lcd_clear (w : World) : World :=
  (lcd_send_cmd w LCD_CLEARDISPLAY).2

/-- The local array `row_offsets` of `lcd_set_cursor`. -/
def row_offsets : List Int := [0x00, 0x40]

/-- Reading `a[i]` for a C `int` index: `none` when the index is outside the array. -/
def arrayRead (a : List Int) (i : Int) : Option Int :=
  if i < 0 then none else a[i.toNat]?

/-- The function `lcd_set_cursor`.  The `int` expression is narrowed to the `char`
parameter of `lcd_send_cmd` and stored in a `uint8_t`, hence the `% 256`. -/
def lcd_set_cursor (w : World) (col row : Int) : Option World :=
  let row := if row > 1 then 1 else row
  match arrayRead row_offsets row with
  | none => none
  | some off => some (lcd_send_cmd w (Int.lor LCD_SETDDRAMADDR (col + off) % 256).toNat).2

/-- The function `set_rgb_register`: one 2-byte write, register number, then value. -/
def set_rgb_register (w : World) (reg value : Nat) : HAL_StatusTypeDef × World :=
  HAL_I2C_Master_Transmit w RGB_ADDRESS [reg, value] 2

/-- The function `lcd_set_rgb`. -/
def lcd_set_rgb (w : World) (r g b : Nat) : HAL_StatusTypeDef × World :=
  let r1 := set_rgb_register w REG_MODE1 0x00
  if r1.1 ≠ HAL_OK then r1 else
  let r2 := set_rgb_register r1.2 REG_OUTPUT 0xAA
  if r2.1 ≠ HAL_OK then r2 else
  let r3 := set_rgb_register r2.2 REG_MODE2 0x00
  if r3.1 ≠ HAL_OK then r3 else
  let r4 := set_rgb_register r3.2 REG_RED r
  if r4.1 ≠ HAL_OK then r4 else
  let r5 := set_rgb_register r4.2 REG_GREEN g
  if r5.1 ≠ HAL_OK then r5 else
  set_rgb_register r5.2 REG_BLUE b

/-! ## The C library calls of `parseCommand` -/

/-- The idiom `p = strchr(s, c); if (p) *p++ = 0;`: the text before the first `c` and the
text after it, `none` when `s` holds no `c` (`strchr` returns `NULL`). -/
def strchr_split (c : Nat) : List Nat → Option (List Nat × List Nat)
  | [] => none
  | x :: xs =>
    if x = c then some ([], xs)
    else (strchr_split c xs).map (fun p => (x :: p.1, p.2))

/-- The predicate `isspace` in the C locale: space, `\t`, `\n`, `\v`, `\f`, `\r`. -/
def isspace (c : Nat) : Bool := c = 32 || (9 ≤ c && c ≤ 13)

/-- The predicate `isdigit`: `'0'` to `'9'`. -/
def isdigit (c : Nat) : Bool := 48 ≤ c && c ≤ 57

/-- White space skipped by a `%d` directive before it converts. -/
def skipSpace : List Nat → List Nat
  | [] => []
  | c :: cs => if isspace c then skipSpace cs else c :: cs

/-- The decimal digits at the head of the input, accumulated onto `acc`, and the input
left after them. -/
def scanDigits (acc : Nat) : List Nat → Nat × List Nat
  | [] => (acc, [])
  | c :: cs => if isdigit c then scanDigits (10 * acc + (c - 48)) cs else (acc, c :: cs)

/-- One `%d` directive of `sscanf`: skip white space, take an optional sign and the
longest run of decimal digits, which must not be empty.  Returns the value converted and
the input left, `none` when nothing can be converted.  The value is the mathematical
one; C defines the result only when it fits an `int`. -/
def scan_d (s : List Nat) : Option (Int × List Nat) :=
  match skipSpace s with
  | [] => none
  | c :: cs =>
    if c = 45 then
      match cs with
      | [] => none
      | d :: _ => if isdigit d then some (-((scanDigits 0 cs).1 : Int), (scanDigits 0 cs).2) else none
    else if c = 43 then
      match cs with
      | [] => none
      | d :: _ => if isdigit d then some (((scanDigits 0 cs).1 : Int), (scanDigits 0 cs).2) else none
    else if isdigit c then some (((scanDigits 0 (c :: cs)).1 : Int), (scanDigits 0 (c :: cs)).2)
    else none

/-- The call `sscanf(s, "%d,%d,%d", &r, &g, &b)`: the values assigned, in order.  The C
return value is their number (or `EOF`, a negative number, when the input ends before
the first conversion); the caller compares it with 3, that is, asks whether all three
were assigned. -/
def sscanf_d_d_d (s : List Nat) : List Int :=
  match scan_d s with
  | none => []
  | some (r, s1) =>
    match s1 with
    | [] => [r]
    | c1 :: s2 =>
      if c1 ≠ 44 then [r] else
      match scan_d s2 with
      | none => [r]
      | some (g, s3) =>
        match s3 with
        | [] => [r, g]
        | c2 :: s4 =>
          if c2 ≠ 44 then [r, g] else
          match scan_d s4 with
          | none => [r, g]
          | some (b, _) => [r, g, b]

/-! ## Command dispatcher (`main.c`) -/

/-- The function `parseCommand`: its effect on the bus and the UART.  `cmd` is the string
the argument points to. -/
def parseCommand (w : World) (cmd : List Nat) : Option World :=
  match strchr_split 58 cmd with
  | none => some (HAL_UART_Transmit w (strLit "ERR:Invalid format\n") 20)
  | some (commandType, commandValue) =>
    if commandType = bytes "RGB" then
      match sscanf_d_d_d commandValue with
      | [r, g, b] =>
        let w1 := (lcd_set_rgb w (r % 256).toNat (g % 256).toNat (b % 256).toNat).2
        some (HAL_UART_Transmit w1 (strLit "ACK:RGB\n") 9)
      | _ => some (HAL_UART_Transmit w (strLit "ERR:RGB parse failed\n") 22)
    else if commandType = bytes "L" then
      let w1 := lcd_clear w
      match strchr_split 124 commandValue with
      | none =>
        match lcd_set_cursor w1 0 0 with
        | none => none
        | some w2 =>
          let w3 := lcd_send_string w2 commandValue
          some (HAL_UART_Transmit w3 (strLit "ACK:L\n") 7)
      | some (line1, line2) =>
        match lcd_set_cursor w1 0 0 with
        | none => none
        | some w2 =>
          let w3 := lcd_send_string w2 line1
          match lcd_set_cursor w3 0 1 with
          | none => none
          | some w4 =>
            let w5 := lcd_send_string w4 line2
            some (HAL_UART_Transmit w5 (strLit "ACK:L\n") 7)
    else some (HAL_UART_Transmit w (strLit "ERR:Unknown command\n") 21)

/-- The function `parseCommand`: its effect on the memory it is handed.  The first `:`
is overwritten by NUL, and for an `L` command the first `|` after it as well. -/
def parseCommand_mem (mem : List Nat) : List Nat :=
  match cstr mem with
  | none => mem
  | some cmd =>
    match strchr_split 58 cmd with
    | none => mem
    | some (commandType, commandValue) =>
      let mem1 := mem.set commandType.length 0
      if commandType = bytes "L" then
        match strchr_split 124 commandValue with
        | none => mem1
        | some (line1, _) => mem1.set (commandType.length + 1 + line1.length) 0
      else mem1

/-! ## Main loop (`main.c`): the dispatch block, statement by statement -/

/-- The statement of the dispatch block the main loop executes next. -/
inductive MainPc where
  | atIf
  | atParse
  | atResetIdx
  | atMemset
  | atClearFlag
deriving DecidableEq, Repr

/-- The receiver's globals, the outside world and the main loop's position. -/
structure System where
  rx : RxState
  world : World
  pc : MainPc

/-- The system after reset, with the outside world `w`. -/
def System.reset (w : World) : System :=
  { rx := RxState.reset, world := w, pc := MainPc.atIf }

/-- One statement of the main loop's block
`if (command_ready_flag) { parseCommand((char*)rx_buf); rx_idx = 0;
memset(rx_buf, 0, RX_BUF_SIZE); command_ready_flag = 0; }`. -/
def mainStep (s : System) : Option System :=
  match s.pc with
  | MainPc.atIf =>
    if s.rx.command_ready_flag ≠ 0 then some { s with pc := MainPc.atParse } else some s
  | MainPc.atParse =>
    match cstr s.rx.rx_buf with
    | none => none
    | some cmd =>
      match parseCommand s.world cmd with
      | none => none
      | some w =>
        some { s with
          rx := { s.rx with rx_buf := parseCommand_mem s.rx.rx_buf }
          world := w
          pc := MainPc.atResetIdx }
  | MainPc.atResetIdx =>
    some { s with rx := { s.rx with rx_idx := 0 }, pc := MainPc.atMemset }
  | MainPc.atMemset =>
    some { s with rx := { s.rx with rx_buf := List.replicate RX_BUF_SIZE 0 }, pc := MainPc.atClearFlag }
  | MainPc.atClearFlag =>
    some { s with rx := { s.rx with command_ready_flag := 0 }, pc := MainPc.atIf }

/-- What can happen next: the receive interrupt delivers a byte, or the main loop
executes its next statement. -/
inductive Event where
  | rx (Instance : USART_TypeDef) (rx_char : Nat)
  | main
deriving DecidableEq, Repr

/-- One event.  The callback runs in interrupt context, between two statements of the
main loop. -/
def step (s : System) : Event → Option System
  | Event.rx i c => some { s with rx := HAL_UART_RxCpltCallback s.rx i c }
  | Event.main => mainStep s

/-- A sequence of events, in order. -/
def run (s : System) : List Event → Option System
  | [] => some s
  | e :: es =>
    match step s e with
    | none => none
    | some s1 => run s1 es

/-- A world whose bus never fails, with nothing sent yet. -/
def World.ok : World :=
  { i2c_status := fun _ => HAL_OK, i2c_log := [], uart_tx := [] }


/-! ## Properties used to state the results -/

/-- Every write of the receive callback recorded in `s` is inside `rx_buf`. -/
def WritesInBounds (s : RxState) : Prop :=
  ∀ w ∈ s.writes, 0 ≤ w.idx ∧ w.idx < (RX_BUF_SIZE : Int)

/-- The cursor and write bounds the receive callback maintains: the cursor stays within
`0 .. RX_BUF_SIZE - 1`, a received byte is stored at an index of at most
`RX_BUF_SIZE - 2`, the terminating NUL at an index of at most `RX_BUF_SIZE - 1`. -/
def CursorBounds (s : RxState) : Prop :=
  0 ≤ s.rx_idx ∧ s.rx_idx ≤ (RX_BUF_SIZE : Int) - 1 ∧
  ∀ w ∈ s.writes, 0 ≤ w.idx ∧ w.idx ≤ (RX_BUF_SIZE : Int) - 1 ∧
    (w.isTerminator = false → w.idx ≤ (RX_BUF_SIZE : Int) - 2)

/-- Invariant of the receiver's globals used in the proofs. -/
def RxInv (s : RxState) : Prop :=
  s.rx_buf.length = 100 ∧ s.rx_buf[99]? = some 0 ∧ CursorBounds s


/-- The six register writes of the backlight sequence, in order: mode1, output, mode2,
red, green, blue. -/
def rgbWrites (r g b : Nat) : List I2CWrite :=
  [⟨RGB_ADDRESS, [0x00, 0x00]⟩, ⟨RGB_ADDRESS, [0x08, 0xAA]⟩, ⟨RGB_ADDRESS, [0x01, 0x00]⟩,
   ⟨RGB_ADDRESS, [0x04, r]⟩, ⟨RGB_ADDRESS, [0x03, g]⟩, ⟨RGB_ADDRESS, [0x02, b]⟩]

/-- The four command writes of the display initialisation, in order: function set,
display on, clear display, entry mode set. -/
def initWrites : List I2CWrite :=
  [⟨LCD_ADDRESS, [0x80, 0x28]⟩, ⟨LCD_ADDRESS, [0x80, 0x0C]⟩, ⟨LCD_ADDRESS, [0x80, 0x01]⟩,
   ⟨LCD_ADDRESS, [0x80, 0x06]⟩]

/-- A world whose bus fails with `s` at transmission `n` and succeeds otherwise. -/
def World.failingAt (n : Nat) (s : HAL_StatusTypeDef) : World :=
  { i2c_status := fun k => if k = n then s else HAL_OK, i2c_log := [], uart_tx := [] }


/-- The decimal numeral of `n`, as bytes. -/
def dec (n : Nat) : List Nat := bytes (Nat.repr n)

/-- The value of a run of decimal digits. -/
def decVal (ds : List Nat) : Nat := ds.foldl (fun a c => 10 * a + (c - 48)) 0

/-- An integer as a text: optional white space, an optional sign, one or more decimal
digits. -/
def IsIntText (t : List Nat) : Prop :=
  ∃ ws sign ds, t = ws ++ sign ++ ds ∧ (∀ c ∈ ws, isspace c = true) ∧
    (sign = [] ∨ sign = [43] ∨ sign = [45]) ∧ ds ≠ [] ∧ ∀ c ∈ ds, isdigit c = true

/-- An RGB payload that can be read as three values: it starts with three integers
separated by single commas.  A payload that cannot be read so is malformed: it is not
numeric, has fewer than three values, or its values are not separated by commas. -/
def WellFormedRGB (p : List Nat) : Prop :=
  ∃ r g b tail, p = r ++ 44 :: (g ++ 44 :: (b ++ tail)) ∧
    IsIntText r ∧ IsIntText g ∧ IsIntText b

/-- One data write to the display controller per character. -/
def dataWrites (text : List Nat) : List I2CWrite :=
  text.map (fun c => ⟨LCD_ADDRESS, [0x40, c]⟩)


/-- The decimal numeral of an integer, as bytes: a minus sign for a negative value, then
the digits of its absolute value. -/
def decInt (x : Int) : List Nat :=
  if x < 0 then 45 :: dec (-x).toNat else dec x.toNat

/-- The values of a C `int` on the target (32 bits). -/
def InIntRange (x : Int) : Prop := -2147483648 ≤ x ∧ x ≤ 2147483647

/-! ## Frame receiver: lemmas -/

theorem callback_data (s : RxState) (b : Nat) (hb : b ≠ 10 ∧ b ≠ 13) :
    HAL_UART_RxCpltCallback s USART_TypeDef.USART2 b =
      if s.rx_idx < 99 then
        { s with
          rx_buf := s.rx_buf.set s.rx_idx.toNat b
          rx_idx := s.rx_idx + 1
          writes := s.writes ++ [⟨s.rx_idx, b, false⟩] }
      else s := by
  simp [HAL_UART_RxCpltCallback, hb.1, hb.2, RX_BUF_SIZE]

theorem callback_terminator (s : RxState) (t : Nat) (ht : t = 10 ∨ t = 13) :
    HAL_UART_RxCpltCallback s USART_TypeDef.USART2 t =
      if s.rx_idx > 0 then
        { s with
          rx_buf := s.rx_buf.set s.rx_idx.toNat 0
          command_ready_flag := 1
          writes := s.writes ++ [⟨s.rx_idx, 0, true⟩] }
      else s := by
  simp [HAL_UART_RxCpltCallback, ht]

theorem rxBytes_cons (s : RxState) (i : USART_TypeDef) (b : Nat) (bs : List Nat) :
    rxBytes s i (b :: bs) = rxBytes (HAL_UART_RxCpltCallback s i b) i bs := rfl

theorem rxBytes_append (s : RxState) (i : USART_TypeDef) (as bs : List Nat) :
    rxBytes s i (as ++ bs) = rxBytes (rxBytes s i as) i bs := by
  simp [rxBytes, List.foldl_append]

theorem set_at_end (pre : List Nat) (m : Nat) (b : Nat) :
    (pre ++ List.replicate (m + 1) 0).set pre.length b = (pre ++ [b]) ++ List.replicate m 0 := by
  rw [List.set_append_right _ _ (le_refl _)]
  simp [List.replicate_succ]

theorem rxBytes_data (bs : List Nat) (hbs : ∀ b ∈ bs, b ≠ 10 ∧ b ≠ 13) :
    ∀ (s : RxState) (pre : List Nat) (m : Nat), s.rx_buf = pre ++ List.replicate m 0 →
      s.rx_idx = (pre.length : Int) → pre.length + m = 100 → 1 ≤ m →
      (rxBytes s USART_TypeDef.USART2 bs).rx_buf
          = (pre ++ bs).take 99 ++ List.replicate (100 - min (pre.length + bs.length) 99) 0 ∧
      (rxBytes s USART_TypeDef.USART2 bs).rx_idx = ((min (pre.length + bs.length) 99 : Nat) : Int) ∧
      (rxBytes s USART_TypeDef.USART2 bs).command_ready_flag = s.command_ready_flag := by
  induction bs with
  | nil =>
    intro s pre m hbuf hidx hlen hm
    have h1 : pre.length ≤ 99 := by omega
    have h2 : 100 - pre.length = m := by omega
    simp [rxBytes, hbuf, hidx, List.take_of_length_le h1, Nat.min_eq_left h1, h2]
  | cons b bs ih =>
    intro s pre m hbuf hidx hlen hm
    have hb := hbs b (List.mem_cons_self _ _)
    have hbs' : ∀ x ∈ bs, x ≠ 10 ∧ x ≠ 13 := fun x hx => hbs x (List.mem_cons_of_mem _ hx)
    rw [rxBytes_cons, callback_data s b hb]
    by_cases hlt : pre.length < 99
    · have hlt' : s.rx_idx < 99 := by rw [hidx]; exact_mod_cast hlt
      rw [if_pos hlt']
      obtain ⟨m', rfl⟩ : ∃ m', m = m' + 1 := ⟨m - 1, by omega⟩
      have hset : s.rx_buf.set s.rx_idx.toNat b = (pre ++ [b]) ++ List.replicate m' 0 := by
        rw [hbuf, hidx, Int.toNat_natCast, set_at_end]
      have := ih hbs' { s with
          rx_buf := s.rx_buf.set s.rx_idx.toNat b
          rx_idx := s.rx_idx + 1
          writes := s.writes ++ [⟨s.rx_idx, b, false⟩] } (pre ++ [b]) m' hset
          (by simp [hidx]) (by simp; omega) (by omega)
      simpa [Nat.add_assoc, Nat.add_comm 1] using this
    · have hge : ¬ s.rx_idx < 99 := by rw [hidx]; exact_mod_cast hlt
      rw [if_neg hge]
      have := ih hbs' s pre m hbuf hidx hlen hm
      have hp : pre.length = 99 := by omega
      have t1 : ∀ l : List Nat, (pre ++ l).take 99 = pre := by
        intro l
        rw [← hp, List.take_left]
      rw [t1] at this
      rw [t1]
      have e1 : min (pre.length + bs.length) 99 = 99 := by omega
      have e2 : min (pre.length + (b :: bs).length) 99 = 99 := by simp; omega
      rw [e1] at this
      rw [e2]
      exact this

theorem RxInv_reset : RxInv RxState.reset := by
  refine ⟨by simp [RxState.reset, RX_BUF_SIZE], by simp [RxState.reset, RX_BUF_SIZE], ?_⟩
  simp [CursorBounds, RxState.reset, RX_BUF_SIZE]

theorem callback_inv (s : RxState) (i : USART_TypeDef) (c : Nat) (h : RxInv s) :
    RxInv (HAL_UART_RxCpltCallback s i c) := by
  obtain ⟨hlen, h99, h0, h1, hw⟩ := h
  simp only [RX_BUF_SIZE] at h0 h1 hw
  unfold HAL_UART_RxCpltCallback
  split
  · split
    · split
      · refine ⟨by simpa using hlen, ?_, ?_⟩
        · simp only [List.getElem?_set]
          split
          · simp [hlen]; omega
          · exact h99
        · refine ⟨h0, by simpa [RX_BUF_SIZE] using h1, ?_⟩
          intro w hwm
          simp only [List.mem_append, List.mem_singleton] at hwm
          rcases hwm with hwm | rfl
          · simpa [RX_BUF_SIZE] using hw w hwm
          · simp [RX_BUF_SIZE]; omega
      · exact ⟨hlen, h99, h0, by simpa [RX_BUF_SIZE] using h1, by simpa [RX_BUF_SIZE] using hw⟩
    · split
      · rename_i hlt
        simp only [RX_BUF_SIZE] at hlt
        refine ⟨by simpa using hlen, ?_, ?_⟩
        · simp only [List.getElem?_set]
          have : s.rx_idx.toNat ≠ 99 := by omega
          simp [this, h99]
        · refine ⟨by simp; omega, by simp [RX_BUF_SIZE]; omega, ?_⟩
          intro w hwm
          simp only [List.mem_append, List.mem_singleton] at hwm
          rcases hwm with hwm | rfl
          · simpa [RX_BUF_SIZE] using hw w hwm
          · simp [RX_BUF_SIZE]; omega
      · exact ⟨hlen, h99, h0, by simpa [RX_BUF_SIZE] using h1, by simpa [RX_BUF_SIZE] using hw⟩
  · exact ⟨hlen, h99, h0, by simpa [RX_BUF_SIZE] using h1, by simpa [RX_BUF_SIZE] using hw⟩

theorem rxBytes_inv (i : USART_TypeDef) (bs : List Nat) :
    ∀ s : RxState, RxInv s → RxInv (rxBytes s i bs) := by
  induction bs with
  | nil => intro s h; exact h
  | cons b bs ih => intro s h; exact ih _ (callback_inv s i b h)

theorem cstr_append_zero (pre rest : List Nat) :
    cstr (pre ++ 0 :: rest) = some (pre.takeWhile (fun c => c ≠ 0)) := by
  induction pre with
  | nil => simp [cstr]
  | cons c cs ih =>
    by_cases hc : c = 0
    · simp [cstr, hc]
    · simp [cstr, hc, ih]

theorem cstr_of_no_zero (line rest : List Nat) (h : 0 ∉ line) :
    cstr (line ++ 0 :: rest) = some line := by
  rw [cstr_append_zero]
  congr 1
  rw [List.takeWhile_eq_self_iff]
  intro c hc
  simp only [ne_eq, decide_not, Bool.not_eq_true', decide_eq_false_iff_not]
  rintro rfl
  exact h hc

theorem rx_line (bs : List Nat) (t : Nat) (hn : 1 ≤ bs.length)
    (hbs : ∀ b ∈ bs, b ≠ 10 ∧ b ≠ 13) (ht : t = 10 ∨ t = 13) :
    (rxBytes RxState.reset USART_TypeDef.USART2 (bs ++ [t])).rx_buf
        = bs.take 99 ++ 0 :: List.replicate (99 - min bs.length 99) 0 ∧
    (rxBytes RxState.reset USART_TypeDef.USART2 (bs ++ [t])).rx_idx = ((min bs.length 99 : Nat) : Int) ∧
    (rxBytes RxState.reset USART_TypeDef.USART2 (bs ++ [t])).command_ready_flag = 1 := by
  have hd := rxBytes_data bs hbs RxState.reset [] 100 (by simp [RxState.reset, RX_BUF_SIZE])
    (by simp [RxState.reset]) (by simp) (by omega)
  simp only [List.nil_append, List.length_nil, Nat.zero_add] at hd
  obtain ⟨hbuf, hidx, -⟩ := hd
  rw [rxBytes_append]
  generalize rxBytes RxState.reset USART_TypeDef.USART2 bs = s at hbuf hidx
  have hpos : s.rx_idx > 0 := by rw [hidx]; have : 0 < min bs.length 99 := by omega
                                 exact_mod_cast this
  have hk : (bs.take 99).length = min bs.length 99 := by simp [Nat.min_comm]
  have hm : 100 - min bs.length 99 = (99 - min bs.length 99) + 1 := by omega
  simp only [rxBytes, List.foldl_cons, List.foldl_nil]
  rw [callback_terminator s t ht, if_pos hpos]
  refine ⟨?_, hidx, rfl⟩
  show s.rx_buf.set s.rx_idx.toNat 0 = _
  rw [hbuf, hidx, Int.toNat_natCast, hm, ← hk, set_at_end]
  simp

theorem cstr_some_of_zero (l : List Nat) : ∀ k : Nat, l[k]? = some 0 → ∃ c, cstr l = some c := by
  induction l with
  | nil => intro k h; simp at h
  | cons x xs ih =>
    intro k h
    by_cases hx : x = 0
    · exact ⟨[], by simp [cstr, hx]⟩
    · cases k with
      | zero => simp at h; exact absurd h hx
      | succ k =>
        simp only [List.getElem?_cons_succ] at h
        obtain ⟨c, hc⟩ := ih k h
        exact ⟨x :: c, by simp [cstr, hx, hc]⟩

theorem lcd_set_cursor_row0 (w : World) :
    lcd_set_cursor w 0 0 = some (lcd_send_cmd w 0x80).2 := rfl

theorem lcd_set_cursor_row1 (w : World) :
    lcd_set_cursor w 0 1 = some (lcd_send_cmd w 0xC0).2 := rfl

theorem parseCommand_total (w : World) (cmd : List Nat) : ∃ w1, parseCommand w cmd = some w1 := by
  unfold parseCommand
  simp only [lcd_set_cursor_row0, lcd_set_cursor_row1]
  split
  · exact ⟨_, rfl⟩
  · split
    · split <;> exact ⟨_, rfl⟩
    · split
      · split <;> exact ⟨_, rfl⟩
      · exact ⟨_, rfl⟩

theorem set_zero_keeps (l : List Nat) (i : Nat) (hlen : l.length = 100) (h99 : l[99]? = some 0) :
    (l.set i 0).length = 100 ∧ (l.set i 0)[99]? = some 0 := by
  refine ⟨by simpa using hlen, ?_⟩
  simp only [List.getElem?_set]
  split
  · simp [hlen]; omega
  · exact h99

theorem parseCommand_mem_keeps (l : List Nat) (hlen : l.length = 100) (h99 : l[99]? = some 0) :
    (parseCommand_mem l).length = 100 ∧ (parseCommand_mem l)[99]? = some 0 := by
  unfold parseCommand_mem
  split
  · exact ⟨hlen, h99⟩
  · split
    · exact ⟨hlen, h99⟩
    · have h1 := set_zero_keeps l
      dsimp only
      split
      · split
        · exact h1 _ hlen h99
        · exact set_zero_keeps _ _ (h1 _ hlen h99).1 (h1 _ hlen h99).2
      · exact h1 _ hlen h99

theorem step_inv (s : System) (e : Event) (h : RxInv s.rx) :
    ∃ s1, step s e = some s1 ∧ RxInv s1.rx := by
  cases e with
  | rx i c => exact ⟨_, rfl, callback_inv s.rx i c h⟩
  | main =>
    obtain ⟨hlen, h99, h0, h1, hw⟩ := h
    simp only [step, mainStep]
    split
    · split <;> exact ⟨_, rfl, hlen, h99, h0, h1, hw⟩
    · obtain ⟨c, hc⟩ := cstr_some_of_zero _ _ h99
      obtain ⟨w1, hw1⟩ := parseCommand_total s.world c
      simp only [hc, hw1]
      have := parseCommand_mem_keeps _ hlen h99
      exact ⟨_, rfl, this.1, this.2, h0, h1, hw⟩
    · exact ⟨_, rfl, hlen, h99, le_refl _, by simp [RX_BUF_SIZE], hw⟩
    · exact ⟨_, rfl, by simp [RX_BUF_SIZE], by simp [RX_BUF_SIZE], h0, h1, hw⟩
    · exact ⟨_, rfl, hlen, h99, h0, h1, hw⟩

theorem run_inv (es : List Event) :
    ∀ s : System, RxInv s.rx → ∃ s1, run s es = some s1 ∧ RxInv s1.rx := by
  induction es with
  | nil => intro s h; exact ⟨s, rfl, h⟩
  | cons e es ih =>
    intro s h
    obtain ⟨s1, hs1, hi1⟩ := step_inv s e h
    obtain ⟨s2, hs2, hi2⟩ := ih s1 hi1
    exact ⟨s2, by simp [run, hs1, hs2], hi2⟩


/-! ## Driver: lemmas -/

theorem lcd_set_rgb_fail (w : World) (r g b k : Nat) (s : HAL_StatusTypeDef)
    (hk1 : 1 ≤ k) (hk6 : k ≤ 6)
    (hok : ∀ j, j < k - 1 → w.i2c_status (w.i2c_log.length + j) = HAL_OK)
    (hfail : w.i2c_status (w.i2c_log.length + (k - 1)) = s) (hs : s ≠ HAL_OK) :
    lcd_set_rgb w r g b = (s, { w with i2c_log := w.i2c_log ++ (rgbWrites r g b).take k }) := by
  have h0 := hok 0
  have h1 := hok 1
  have h2 := hok 2
  have h3 := hok 3
  have h4 := hok 4
  simp only [Nat.add_zero] at h0
  subst hfail
  interval_cases k <;>
    simp_all [lcd_set_rgb, set_rgb_register, HAL_I2C_Master_Transmit, rgbWrites, REG_MODE1,
      REG_MODE2, REG_OUTPUT, REG_RED, REG_GREEN, REG_BLUE]

theorem lcd_set_rgb_ok (w : World) (r g b : Nat)
    (hok : ∀ j, j < 6 → w.i2c_status (w.i2c_log.length + j) = HAL_OK) :
    lcd_set_rgb w r g b = (HAL_OK, { w with i2c_log := w.i2c_log ++ rgbWrites r g b }) := by
  have h0 := hok 0
  have h1 := hok 1
  have h2 := hok 2
  have h3 := hok 3
  have h4 := hok 4
  have h5 := hok 5
  simp only [Nat.add_zero] at h0
  simp_all [lcd_set_rgb, set_rgb_register, HAL_I2C_Master_Transmit, rgbWrites, REG_MODE1,
      REG_MODE2, REG_OUTPUT, REG_RED, REG_GREEN, REG_BLUE]

theorem lcd_set_rgb_ok_only (w : World) (r g b : Nat)
    (h : (lcd_set_rgb w r g b).1 = HAL_OK) :
    ∀ j, j < 6 → w.i2c_status (w.i2c_log.length + j) = HAL_OK := by
  by_contra hne
  push_neg at hne
  obtain ⟨j, hj6, hj⟩ := hne
  -- the first failing write
  have hex : ∃ k, k < 6 ∧ w.i2c_status (w.i2c_log.length + k) ≠ HAL_OK := ⟨j, hj6, hj⟩
  classical
  let k := Nat.find hex
  have hk : k < 6 ∧ w.i2c_status (w.i2c_log.length + k) ≠ HAL_OK := Nat.find_spec hex
  have hmin : ∀ i, i < k → w.i2c_status (w.i2c_log.length + i) = HAL_OK := by
    intro i hi
    by_contra hc
    exact Nat.find_min hex hi ⟨by omega, hc⟩
  have := lcd_set_rgb_fail w r g b (k + 1) _ (by omega) (by omega)
    (by simpa using hmin) (by simp) hk.2
  rw [this] at h
  exact hk.2 h

theorem lcd_init_fail (w : World) (j : Nat) (s : HAL_StatusTypeDef)
    (hj1 : 1 ≤ j) (hj4 : j ≤ 4)
    (hok : ∀ i, i < j - 1 → w.i2c_status (w.i2c_log.length + i) = HAL_OK)
    (hfail : w.i2c_status (w.i2c_log.length + (j - 1)) = s) (hs : s ≠ HAL_OK) :
    lcd_init w = (s, { w with i2c_log := w.i2c_log ++ initWrites.take j }) := by
  have h0 := hok 0
  have h1 := hok 1
  have h2 := hok 2
  simp only [Nat.add_zero] at h0
  subst hfail
  interval_cases j <;>
    simp_all [lcd_init, lcd_send_cmd, HAL_I2C_Master_Transmit, initWrites, LCD_FUNCTIONSET,
      LCD_2LINE, LCD_5x8DOTS, LCD_DISPLAYCONTROL, LCD_DISPLAYON, LCD_CLEARDISPLAY,
      LCD_ENTRYMODESET]

theorem lcd_init_ok (w : World)
    (hok : ∀ i, i < 4 → w.i2c_status (w.i2c_log.length + i) = HAL_OK) :
    lcd_init w = (HAL_OK, { w with i2c_log := w.i2c_log ++ initWrites }) := by
  have h0 := hok 0
  have h1 := hok 1
  have h2 := hok 2
  have h3 := hok 3
  simp only [Nat.add_zero] at h0
  simp_all [lcd_init, lcd_send_cmd, HAL_I2C_Master_Transmit, initWrites, LCD_FUNCTIONSET,
      LCD_2LINE, LCD_5x8DOTS, LCD_DISPLAYCONTROL, LCD_DISPLAYON, LCD_CLEARDISPLAY,
      LCD_ENTRYMODESET]


/-! ## Dispatcher: lemmas -/

theorem bytes_RGB : bytes "RGB" = [82, 71, 66] := by decide

theorem bytes_L : bytes "L" = [76] := by decide

theorem bytes_RGB_colon : bytes "RGB:" = [82, 71, 66, 58] := by decide

theorem bytes_L_colon : bytes "L:" = [76, 58] := by decide

theorem strchr_split_none (c : Nat) (s : List Nat) (h : c ∉ s) : strchr_split c s = none := by
  induction s with
  | nil => rfl
  | cons x xs ih =>
    have hx : x ≠ c := fun e => h (by simp [e])
    have hxs : c ∉ xs := fun e => h (List.mem_cons_of_mem _ e)
    simp [strchr_split, hx, ih hxs]

theorem strchr_split_first (c : Nat) (a b : List Nat) (h : c ∉ a) :
    strchr_split c (a ++ c :: b) = some (a, b) := by
  induction a with
  | nil => simp [strchr_split]
  | cons x xs ih =>
    have hx : x ≠ c := fun e => h (by simp [e])
    have hxs : c ∉ xs := fun e => h (List.mem_cons_of_mem _ e)
    simp [strchr_split, hx, ih hxs]

theorem scanDigits_append (ds rest : List Nat) (hds : ∀ c ∈ ds, isdigit c = true)
    (hrest : ∀ c cs, rest = c :: cs → isdigit c = false) :
    ∀ acc, scanDigits acc (ds ++ rest)
      = (ds.foldl (fun a c => 10 * a + (c - 48)) acc, rest) := by
  induction ds with
  | nil =>
    intro acc
    cases rest with
    | nil => rfl
    | cons c cs => simp [scanDigits, hrest c cs rfl]
  | cons d ds ih =>
    intro acc
    have hd := hds d (List.mem_cons_self _ _)
    simp [scanDigits, hd, ih (fun c hc => hds c (List.mem_cons_of_mem _ hc))]

theorem digit_facts (d : Nat) (h : isdigit d = true) :
    isspace d = false ∧ d ≠ 45 ∧ d ≠ 43 := by
  simp only [isdigit, Bool.and_eq_true, decide_eq_true_eq] at h
  refine ⟨?_, by omega, by omega⟩
  simp only [isspace, Bool.or_eq_false_iff, decide_eq_false_iff_not, Bool.and_eq_false_imp,
    decide_eq_true_eq]
  omega

theorem scan_d_digits (ds rest : List Nat) (hne : ds ≠ []) (hds : ∀ c ∈ ds, isdigit c = true)
    (hrest : ∀ c cs, rest = c :: cs → isdigit c = false) :
    scan_d (ds ++ rest) = some ((decVal ds : Int), rest) := by
  cases ds with
  | nil => exact absurd rfl hne
  | cons d ds =>
    have hd := hds d (List.mem_cons_self _ _)
    obtain ⟨h1, h2, h3⟩ := digit_facts d hd
    have := scanDigits_append (d :: ds) rest hds hrest 0
    simp only [List.cons_append] at this
    simp [scan_d, skipSpace, h1, h2, h3, hd, this, decVal]

set_option maxRecDepth 100000 in
theorem dec_spec : ∀ r, r < 256 →
    dec r ≠ [] ∧ (∀ c ∈ dec r, isdigit c = true) ∧ decVal (dec r) = r := by
  decide

theorem sscanf_dec (r g b : Nat) (hr : r < 256) (hg : g < 256) (hb : b < 256) :
    sscanf_d_d_d (dec r ++ 44 :: (dec g ++ 44 :: dec b)) = [(r : Int), (g : Int), (b : Int)] := by
  obtain ⟨r1, r2, r3⟩ := dec_spec r hr
  obtain ⟨g1, g2, g3⟩ := dec_spec g hg
  obtain ⟨b1, b2, b3⟩ := dec_spec b hb
  have hcomma : ∀ (t : List Nat) (c : Nat) (cs : List Nat), 44 :: t = c :: cs → isdigit c = false := by
    intro t c cs h
    simp only [List.cons.injEq] at h
    rw [← h.1]
    decide
  have e1 := scan_d_digits (dec r) (44 :: (dec g ++ 44 :: dec b)) r1 r2 (hcomma _)
  have e2 := scan_d_digits (dec g) (44 :: dec b) g1 g2 (hcomma _)
  have e3 := scan_d_digits (dec b) [] b1 b2 (by intro c cs h; cases h)
  rw [List.append_nil] at e3
  simp [sscanf_d_d_d, e1, e2, e3, r3, g3, b3]

theorem lcd_send_string_ok (text : List Nat) :
    ∀ w : World, (∀ k, w.i2c_status k = HAL_OK) →
      lcd_send_string w text = { w with i2c_log := w.i2c_log ++ dataWrites text } := by
  induction text with
  | nil => intro w _; simp [lcd_send_string, dataWrites]
  | cons c cs ih =>
    intro w hok
    simp only [lcd_send_string, lcd_send_data, HAL_I2C_Master_Transmit, hok, ne_eq,
      not_true_eq_false, if_false]
    rw [ih]
    · simp [dataWrites]
    · exact hok

theorem strLit_ack_rgb : (strLit "ACK:RGB\n").take 9 = bytes "ACK:RGB\n" ++ [0] := by decide

theorem strLit_ack_l : (strLit "ACK:L\n").take 7 = bytes "ACK:L\n" ++ [0] := by decide

theorem strLit_err_rgb :
    (strLit "ERR:RGB parse failed\n").take 22 = bytes "ERR:RGB parse failed\n" ++ [0] := by
  decide

theorem strLit_err_format :
    (strLit "ERR:Invalid format\n").take 20 = bytes "ERR:Invalid format\n" ++ [0] := by
  decide

theorem strLit_err_unknown :
    (strLit "ERR:Unknown command\n").take 21 = bytes "ERR:Unknown command\n" ++ [0] := by
  decide

theorem parseCommand_rgb_ok (w : World) (r g b : Nat) (hr : r ≤ 255) (hg : g ≤ 255)
    (hb : b ≤ 255) (hbus : ∀ k, w.i2c_status k = HAL_OK) :
    parseCommand w (bytes "RGB:" ++ dec r ++ bytes "," ++ dec g ++ bytes "," ++ dec b)
      = some { w with
          i2c_log := w.i2c_log ++ rgbWrites r g b
          uart_tx := w.uart_tx ++ (bytes "ACK:RGB\n" ++ [0]) } := by
  have hc : bytes "," = [44] := by decide
  have hs := sscanf_dec r g b (by omega) (by omega) (by omega)
  have hsplit := strchr_split_first 58 [82, 71, 66] (dec r ++ 44 :: (dec g ++ 44 :: dec b))
    (by decide)
  have hrgb := lcd_set_rgb_ok w (((r : Int) % 256).toNat) (((g : Int) % 256).toNat)
    (((b : Int) % 256).toNat) (fun j _ => hbus _)
  have er : ((r : Int) % 256).toNat = r := by omega
  have eg : ((g : Int) % 256).toNat = g := by omega
  have eb : ((b : Int) % 256).toNat = b := by omega
  rw [er, eg, eb] at hrgb
  simp only [bytes_RGB_colon, hc, List.append_assoc, List.cons_append, List.nil_append,
    List.singleton_append] at hsplit ⊢
  simp only [parseCommand, hsplit, bytes_RGB, if_true, hs, er, eg, eb, hrgb, HAL_UART_Transmit,
    strLit_ack_rgb]

theorem skipSpace_spec (s : List Nat) :
    ∃ ws, s = ws ++ skipSpace s ∧ ∀ c ∈ ws, isspace c = true := by
  induction s with
  | nil => exact ⟨[], rfl, by simp⟩
  | cons x xs ih =>
    by_cases hx : isspace x = true
    · obtain ⟨ws, h1, h2⟩ := ih
      refine ⟨x :: ws, ?_, ?_⟩
      · simp only [skipSpace, hx, if_true, List.cons_append]
        rw [← h1]
      · intro c hc
        rcases List.mem_cons.1 hc with rfl | hc
        · exact hx
        · exact h2 c hc
    · exact ⟨[], by simp [skipSpace, hx], by simp⟩

theorem scanDigits_spec (s : List Nat) :
    ∀ acc, ∃ ds, s = ds ++ (scanDigits acc s).2 ∧ ∀ c ∈ ds, isdigit c = true := by
  induction s with
  | nil => intro acc; exact ⟨[], rfl, by simp⟩
  | cons x xs ih =>
    intro acc
    by_cases hx : isdigit x = true
    · obtain ⟨ds, h1, h2⟩ := ih (10 * acc + (x - 48))
      refine ⟨x :: ds, ?_, ?_⟩
      · simp only [scanDigits, hx, if_true, List.cons_append]
        rw [← h1]
      · intro c hc
        rcases List.mem_cons.1 hc with rfl | hc
        · exact hx
        · exact h2 c hc
    · exact ⟨[], by simp [scanDigits, hx], by simp⟩

theorem scanDigits_spec_cons (d : Nat) (cs : List Nat) (hd : isdigit d = true) (acc : Nat) :
    ∃ ds, d :: cs = ds ++ (scanDigits acc (d :: cs)).2 ∧ ds ≠ [] ∧ ∀ c ∈ ds, isdigit c = true := by
  obtain ⟨ds, h1, h2⟩ := scanDigits_spec cs (10 * acc + (d - 48))
  refine ⟨d :: ds, ?_, by simp, ?_⟩
  · simp only [scanDigits, hd, if_true, List.cons_append]
    rw [← h1]
  · intro c hc
    rcases List.mem_cons.1 hc with rfl | hc
    · exact hd
    · exact h2 c hc

theorem scan_d_sound (s rest : List Nat) (v : Int) (h : scan_d s = some (v, rest)) :
    ∃ t, s = t ++ rest ∧ IsIntText t := by
  obtain ⟨ws, hws, hsp⟩ := skipSpace_spec s
  unfold scan_d at h
  cases hk : skipSpace s with
  | nil => simp [hk] at h
  | cons c cs =>
    rw [hk] at hws
    simp only [hk] at h
    by_cases h45 : c = 45
    · subst h45
      simp only [if_true] at h
      cases cs with
      | nil => simp at h
      | cons d cs =>
        simp only at h
        by_cases hd : isdigit d = true
        · simp only [hd, if_true, Option.some.injEq, Prod.mk.injEq] at h
          obtain ⟨ds, e, hne, hds⟩ := scanDigits_spec_cons d cs hd 0
          rw [h.2] at e
          refine ⟨ws ++ [45] ++ ds, ?_, ws, [45], ds, rfl, hsp, Or.inr (Or.inr rfl), hne, hds⟩
          rw [hws, e]
          simp
        · simp [hd] at h
    · simp only [h45, if_false] at h
      by_cases h43 : c = 43
      · subst h43
        simp only [if_true] at h
        cases cs with
        | nil => simp at h
        | cons d cs =>
          simp only at h
          by_cases hd : isdigit d = true
          · simp only [hd, if_true, Option.some.injEq, Prod.mk.injEq] at h
            obtain ⟨ds, e, hne, hds⟩ := scanDigits_spec_cons d cs hd 0
            rw [h.2] at e
            refine ⟨ws ++ [43] ++ ds, ?_, ws, [43], ds, rfl, hsp, Or.inr (Or.inl rfl), hne, hds⟩
            rw [hws, e]
            simp
          · simp [hd] at h
      · simp only [h43, if_false] at h
        by_cases hd : isdigit c = true
        · simp only [hd, if_true, Option.some.injEq, Prod.mk.injEq] at h
          obtain ⟨ds, e, hne, hds⟩ := scanDigits_spec_cons c cs hd 0
          rw [h.2] at e
          refine ⟨ws ++ [] ++ ds, ?_, ws, [], ds, rfl, hsp, Or.inl rfl, hne, hds⟩
          rw [hws, e]
          simp
        · simp [hd] at h

theorem sscanf_sound (p : List Nat) (r g b : Int) (h : sscanf_d_d_d p = [r, g, b]) :
    WellFormedRGB p := by
  unfold sscanf_d_d_d at h
  cases h1 : scan_d p with
  | none => simp [h1] at h
  | some x1 =>
    obtain ⟨v1, s1⟩ := x1
    simp only [h1] at h
    cases s1 with
    | nil => simp at h
    | cons c1 s2 =>
      simp only at h
      by_cases hc1 : c1 = 44
      · subst hc1
        simp only [ne_eq, not_true_eq_false, if_false] at h
        cases h2 : scan_d s2 with
        | none => simp [h2] at h
        | some x2 =>
          obtain ⟨v2, s3⟩ := x2
          simp only [h2] at h
          cases s3 with
          | nil => simp at h
          | cons c2 s4 =>
            simp only at h
            by_cases hc2 : c2 = 44
            · subst hc2
              simp only [ne_eq, not_true_eq_false, if_false] at h
              cases h3 : scan_d s4 with
              | none => simp [h3] at h
              | some x3 =>
                obtain ⟨v3, s5⟩ := x3
                obtain ⟨t1, e1, i1⟩ := scan_d_sound _ _ _ h1
                obtain ⟨t2, e2, i2⟩ := scan_d_sound _ _ _ h2
                obtain ⟨t3, e3, i3⟩ := scan_d_sound _ _ _ h3
                exact ⟨t1, t2, t3, s5, by rw [e1, e2, e3], i1, i2, i3⟩
            · simp [hc2] at h
      · simp [hc1] at h

theorem isIntText_no_comma (t : List Nat) (h : IsIntText t) : 44 ∉ t := by
  obtain ⟨ws, sign, ds, rfl, hws, hsign, -, hds⟩ := h
  intro hm
  simp only [List.mem_append] at hm
  rcases hm with (hm | hm) | hm
  · exact absurd (hws 44 hm) (by decide)
  · rcases hsign with rfl | rfl | rfl <;> simp at hm
  · exact absurd (hds 44 hm) (by decide)

theorem wellFormed_two_commas (p : List Nat) (h : WellFormedRGB p) : 2 ≤ p.count 44 := by
  obtain ⟨r, g, b, tail, rfl, -, -, -⟩ := h
  simp only [List.count_append, List.count_cons_self]
  omega

theorem parseCommand_rgb_malformed (w : World) (p : List Nat) (h : ¬ WellFormedRGB p) :
    parseCommand w (bytes "RGB:" ++ p)
      = some { w with uart_tx := w.uart_tx ++ (bytes "ERR:RGB parse failed\n" ++ [0]) } := by
  have hsplit := strchr_split_first 58 [82, 71, 66] p (by decide)
  simp only [bytes_RGB_colon, List.cons_append, List.nil_append] at hsplit ⊢
  simp only [parseCommand, hsplit, bytes_RGB, if_true]
  split
  · rename_i r g b heq
    exact absurd (sscanf_sound p r g b heq) h
  · simp only [HAL_UART_Transmit, strLit_err_rgb]

theorem parseCommand_L_one (w : World) (hbus : ∀ k, w.i2c_status k = HAL_OK) (a : List Nat)
    (ha : 124 ∉ a) :
    parseCommand w (bytes "L:" ++ a)
      = some { w with
          i2c_log := w.i2c_log ++ ([⟨LCD_ADDRESS, [0x80, 0x01]⟩, ⟨LCD_ADDRESS, [0x80, 0x80]⟩]
            ++ dataWrites a)
          uart_tx := w.uart_tx ++ (bytes "ACK:L\n" ++ [0]) } := by
  have hsplit := strchr_split_first 58 [76] a (by decide)
  have hne : ([76] : List Nat) ≠ [82, 71, 66] := by decide
  simp only [bytes_L_colon, List.cons_append, List.nil_append] at hsplit ⊢
  simp only [parseCommand, hsplit, bytes_RGB, bytes_L, hne, if_false, if_true,
    strchr_split_none 124 a ha, lcd_set_cursor_row0]
  rw [lcd_send_string_ok]
  · simp [HAL_UART_Transmit, strLit_ack_l, lcd_clear, lcd_send_cmd, HAL_I2C_Master_Transmit,
      LCD_CLEARDISPLAY]
  · exact hbus

theorem parseCommand_L_two (w : World) (hbus : ∀ k, w.i2c_status k = HAL_OK) (a b : List Nat)
    (ha : 124 ∉ a) :
    parseCommand w (bytes "L:" ++ a ++ 124 :: b)
      = some { w with
          i2c_log := w.i2c_log ++ ([⟨LCD_ADDRESS, [0x80, 0x01]⟩, ⟨LCD_ADDRESS, [0x80, 0x80]⟩]
            ++ dataWrites a ++ [⟨LCD_ADDRESS, [0x80, 0xC0]⟩] ++ dataWrites b)
          uart_tx := w.uart_tx ++ (bytes "ACK:L\n" ++ [0]) } := by
  have hsplit := strchr_split_first 58 [76] (a ++ 124 :: b) (by decide)
  have hne : ([76] : List Nat) ≠ [82, 71, 66] := by decide
  simp only [bytes_L_colon, List.cons_append, List.nil_append, List.append_assoc] at hsplit ⊢
  simp only [parseCommand, hsplit, bytes_RGB, bytes_L, hne, if_false, if_true,
    strchr_split_first 124 a b ha, lcd_set_cursor_row0]
  rw [lcd_send_string_ok a]
  · simp only [lcd_set_cursor_row1]
    rw [lcd_send_string_ok b]
    · simp [HAL_UART_Transmit, strLit_ack_l, lcd_clear, lcd_send_cmd, HAL_I2C_Master_Transmit,
        LCD_CLEARDISPLAY]
    · exact hbus
  · exact hbus

theorem parseCommand_no_colon (w : World) (line : List Nat) (h : 58 ∉ line) :
    parseCommand w line
      = some { w with uart_tx := w.uart_tx ++ (bytes "ERR:Invalid format\n" ++ [0]) } := by
  simp only [parseCommand, strchr_split_none 58 line h, HAL_UART_Transmit, strLit_err_format]

theorem parseCommand_unknown (w : World) (ty rest : List Nat) (h : 58 ∉ ty)
    (h1 : ty ≠ bytes "RGB") (h2 : ty ≠ bytes "L") :
    parseCommand w (ty ++ 58 :: rest)
      = some { w with uart_tx := w.uart_tx ++ (bytes "ERR:Unknown command\n" ++ [0]) } := by
  simp only [parseCommand, strchr_split_first 58 ty rest h, h1, h2, if_false, HAL_UART_Transmit,
    strLit_err_unknown]

theorem skipSpace_append (ws x : List Nat) (hws : ∀ c ∈ ws, isspace c = true)
    (hx : ∀ c cs, x = c :: cs → isspace c = false) : skipSpace (ws ++ x) = x := by
  induction ws with
  | nil =>
    cases x with
    | nil => rfl
    | cons c cs => simp [skipSpace, hx c cs rfl]
  | cons a ws ih =>
    have ha := hws a (List.mem_cons_self _ _)
    simp [skipSpace, ha, ih (fun c hc => hws c (List.mem_cons_of_mem _ hc))]

theorem scan_d_complete (t rest : List Nat) (h : IsIntText t) :
    ∃ v rest1, scan_d (t ++ rest) = some (v, rest1) ∧
      ((∀ c cs, rest = c :: cs → isdigit c = false) → rest1 = rest) := by
  obtain ⟨ws, sign, ds, rfl, hws, hsign, hne, hds⟩ := h
  cases ds with
  | nil => exact absurd rfl hne
  | cons d ds =>
    have hd := hds d (List.mem_cons_self _ _)
    obtain ⟨d1, d2, d3⟩ := digit_facts d hd
    have htail : (∀ c cs, rest = c :: cs → isdigit c = false) →
        (scanDigits 0 (d :: (ds ++ rest))).2 = rest := by
      intro hr
      have := scanDigits_append (d :: ds) rest hds hr 0
      simp only [List.cons_append] at this
      rw [this]
    rcases hsign with rfl | rfl | rfl
    · have hs : skipSpace (ws ++ (d :: (ds ++ rest))) = d :: (ds ++ rest) :=
        skipSpace_append ws _ hws (by intro c cs e; cases e; exact d1)
      refine ⟨((scanDigits 0 (d :: (ds ++ rest))).1 : Int), _, ?_, htail⟩
      simp only [List.append_nil, List.append_assoc, List.cons_append]
      simp only [scan_d, hs, d2, d3, hd, if_false, if_true]
    · have hs : skipSpace (ws ++ (43 :: d :: (ds ++ rest))) = 43 :: d :: (ds ++ rest) :=
        skipSpace_append ws _ hws (by intro c cs e; cases e; decide)
      refine ⟨((scanDigits 0 (d :: (ds ++ rest))).1 : Int), _, ?_, htail⟩
      simp only [List.append_assoc, List.cons_append, List.nil_append]
      simp [scan_d, hs, hd]
    · have hs : skipSpace (ws ++ (45 :: d :: (ds ++ rest))) = 45 :: d :: (ds ++ rest) :=
        skipSpace_append ws _ hws (by intro c cs e; cases e; decide)
      refine ⟨-((scanDigits 0 (d :: (ds ++ rest))).1 : Int), _, ?_, htail⟩
      simp only [List.append_assoc, List.cons_append, List.nil_append]
      simp [scan_d, hs, hd]

theorem sscanf_complete (p : List Nat) (h : WellFormedRGB p) :
    ∃ r g b, sscanf_d_d_d p = [r, g, b] := by
  obtain ⟨t1, t2, t3, tail, rfl, i1, i2, i3⟩ := h
  have hcomma : ∀ (t : List Nat) (c : Nat) (cs : List Nat), 44 :: t = c :: cs → isdigit c = false := by
    intro t c cs h
    simp only [List.cons.injEq] at h
    rw [← h.1]
    decide
  obtain ⟨v1, r1, e1, k1⟩ := scan_d_complete t1 (44 :: (t2 ++ 44 :: (t3 ++ tail))) i1
  obtain ⟨v2, r2, e2, k2⟩ := scan_d_complete t2 (44 :: (t3 ++ tail)) i2
  obtain ⟨v3, r3, e3, -⟩ := scan_d_complete t3 tail i3
  rw [k1 (hcomma _)] at e1
  rw [k2 (hcomma _)] at e2
  exact ⟨v1, v2, v3, by simp [sscanf_d_d_d, e1, e2, e3]⟩

/-- The reply `ERR:RGB parse failed` is given exactly for the payloads that are not
well formed: a payload that starts with three integers separated by commas is accepted,
whatever follows the third integer. -/
theorem sscanf_three_iff (p : List Nat) :
    (∃ r g b, sscanf_d_d_d p = [r, g, b]) ↔ WellFormedRGB p :=
  ⟨fun ⟨r, g, b, h⟩ => sscanf_sound p r g b h, sscanf_complete p⟩

/-- For a row that is not negative and a column in `0 .. 15`, `lcd_set_cursor` clamps
the row to 1 and issues the single command `0x80 | (col + row_offsets[row])`. -/
theorem lcd_set_cursor_in_range (w : World) (col row : Int) (hc0 : 0 ≤ col) (hc : col ≤ 15)
    (hr : 0 ≤ row) :
    lcd_set_cursor w col row
      = some { w with i2c_log := w.i2c_log ++
          [⟨LCD_ADDRESS, [0x80, (Int.lor 0x80 (col + (if row = 0 then 0x00 else 0x40))).toNat]⟩] } := by
  obtain ⟨c, rfl⟩ : ∃ c : Nat, col = (c : Int) := ⟨col.toNat, by omega⟩
  have hc' : c ≤ 15 := by omega
  by_cases h1 : row > 1
  · have hne : row ≠ 0 := by omega
    simp only [lcd_set_cursor, h1, if_true, hne, if_false]
    interval_cases c <;> rfl
  · have h01 : row = 0 ∨ row = 1 := by omega
    rcases h01 with rfl | rfl
    · interval_cases c <;> rfl
    · interval_cases c <;> rfl

/-! ## Decimal numerals of arbitrary integers -/

theorem digitChar_toNat (k : Nat) (hk : k < 10) : (Nat.digitChar k).toNat = 48 + k := by
  interval_cases k <;> rfl

theorem decVal_snoc (l : List Nat) (c : Nat) : decVal (l ++ [c]) = 10 * decVal l + (c - 48) := by
  simp [decVal, List.foldl_append]

theorem toDigitsCore_spec : ∀ (fuel n : Nat) (ds : List Char), n < fuel →
    ∃ front : List Char, Nat.toDigitsCore 10 fuel n ds = front ++ ds ∧ front ≠ [] ∧
      (∀ c ∈ front, isdigit c.toNat = true) ∧ decVal (front.map Char.toNat) = n := by
  intro fuel
  induction fuel with
  | zero => intro n ds h; omega
  | succ fuel ih =>
    intro n ds h
    have hm : n % 10 < 10 := Nat.mod_lt _ (by decide)
    have hd : (Nat.digitChar (n % 10)).toNat = 48 + n % 10 := digitChar_toNat _ hm
    have hdig : isdigit (Nat.digitChar (n % 10)).toNat = true := by
      rw [hd]
      simp only [isdigit, Bool.and_eq_true, decide_eq_true_eq]
      omega
    by_cases h0 : n / 10 = 0
    · refine ⟨[Nat.digitChar (n % 10)], by simp [Nat.toDigitsCore, h0], by simp, ?_, ?_⟩
      · intro c hc
        rw [List.mem_singleton.1 hc]
        exact hdig
      · simp only [List.map_cons, List.map_nil, decVal, List.foldl_cons, List.foldl_nil, hd]
        omega
    · obtain ⟨front, e, -, hf, hv⟩ := ih (n / 10) (Nat.digitChar (n % 10) :: ds) (by omega)
      refine ⟨front ++ [Nat.digitChar (n % 10)], ?_, by simp, ?_, ?_⟩
      · simp only [Nat.toDigitsCore, h0, if_false, e, List.append_assoc, List.singleton_append]
      · intro c hc
        rcases List.mem_append.1 hc with hc | hc
        · exact hf c hc
        · rw [List.mem_singleton.1 hc]
          exact hdig
      · rw [List.map_append, List.map_cons, List.map_nil, decVal_snoc, hv, hd]
        omega

theorem dec_spec_all (n : Nat) :
    dec n ≠ [] ∧ (∀ c ∈ dec n, isdigit c = true) ∧ decVal (dec n) = n := by
  obtain ⟨front, e, hne, hf, hv⟩ := toDigitsCore_spec (n + 1) n [] (by omega)
  have hdec : dec n = front.map Char.toNat := by
    show List.map Char.toNat (Nat.toDigitsCore 10 (n + 1) n []) = _
    rw [e, List.append_nil]
  rw [hdec]
  refine ⟨by simpa using hne, ?_, hv⟩
  intro c hc
  obtain ⟨ch, hch, rfl⟩ := List.mem_map.1 hc
  exact hf ch hch

theorem scan_d_neg (ds rest : List Nat) (hne : ds ≠ []) (hds : ∀ c ∈ ds, isdigit c = true)
    (hrest : ∀ c cs, rest = c :: cs → isdigit c = false) :
    scan_d (45 :: (ds ++ rest)) = some (-(decVal ds : Int), rest) := by
  cases ds with
  | nil => exact absurd rfl hne
  | cons d ds =>
    have hd := hds d (List.mem_cons_self _ _)
    have := scanDigits_append (d :: ds) rest hds hrest 0
    simp only [List.cons_append] at this
    have h45 : isspace 45 = false := by decide
    simp [scan_d, skipSpace, h45, hd, this, decVal]

theorem scan_d_decInt (x : Int) (rest : List Nat)
    (hrest : ∀ c cs, rest = c :: cs → isdigit c = false) :
    scan_d (decInt x ++ rest) = some (x, rest) := by
  unfold decInt
  by_cases hx : x < 0
  · obtain ⟨h1, h2, h3⟩ := dec_spec_all (-x).toNat
    rw [if_pos hx, List.cons_append, scan_d_neg _ _ h1 h2 hrest, h3]
    have : -(((-x).toNat : Nat) : Int) = x := by omega
    rw [this]
  · obtain ⟨h1, h2, h3⟩ := dec_spec_all x.toNat
    rw [if_neg hx, scan_d_digits _ _ h1 h2 hrest, h3]
    have : ((x.toNat : Nat) : Int) = x := by omega
    rw [this]

theorem sscanf_decInt (x y z : Int) :
    sscanf_d_d_d (decInt x ++ 44 :: (decInt y ++ 44 :: decInt z)) = [x, y, z] := by
  have hcomma : ∀ (t : List Nat) (c : Nat) (cs : List Nat), 44 :: t = c :: cs → isdigit c = false := by
    intro t c cs h
    simp only [List.cons.injEq] at h
    rw [← h.1]
    decide
  have e1 := scan_d_decInt x (44 :: (decInt y ++ 44 :: decInt z)) (hcomma _)
  have e2 := scan_d_decInt y (44 :: decInt z) (hcomma _)
  have e3 := scan_d_decInt z [] (by intro c cs h; cases h)
  rw [List.append_nil] at e3
  simp [sscanf_d_d_d, e1, e2, e3]

theorem parseCommand_rgb_wrap (w : World) (x y z : Int) (hbus : ∀ k, w.i2c_status k = HAL_OK) :
    parseCommand w (bytes "RGB:" ++ decInt x ++ bytes "," ++ decInt y ++ bytes "," ++ decInt z)
      = some { w with
          i2c_log := w.i2c_log ++ rgbWrites (x % 256).toNat (y % 256).toNat (z % 256).toNat
          uart_tx := w.uart_tx ++ (bytes "ACK:RGB\n" ++ [0]) } := by
  have hc : bytes "," = [44] := by decide
  have hs := sscanf_decInt x y z
  have hsplit := strchr_split_first 58 [82, 71, 66] (decInt x ++ 44 :: (decInt y ++ 44 :: decInt z))
    (by decide)
  have hrgb := lcd_set_rgb_ok w (x % 256).toNat (y % 256).toNat (z % 256).toNat
    (fun j _ => hbus _)
  simp only [bytes_RGB_colon, hc, List.append_assoc, List.cons_append, List.nil_append,
    List.singleton_append] at hsplit ⊢
  simp only [parseCommand, hsplit, bytes_RGB, if_true, hs, hrgb, HAL_UART_Transmit,
    strLit_ack_rgb]

/-! ## Frame receiver and the ready flag -/

theorem callback_ignores_flag (s : RxState) (i : USART_TypeDef) (c f : Nat) :
    (HAL_UART_RxCpltCallback { s with command_ready_flag := f } i c).rx_buf
      = (HAL_UART_RxCpltCallback s i c).rx_buf ∧
    (HAL_UART_RxCpltCallback { s with command_ready_flag := f } i c).rx_idx
      = (HAL_UART_RxCpltCallback s i c).rx_idx := by
  unfold HAL_UART_RxCpltCallback
  constructor <;> (split <;> [(split <;> [(split <;> rfl); (split <;> rfl)]); rfl])

theorem callback_overwrites_nul (s : RxState) (b : Nat) (hflag : s.command_ready_flag = 1)
    (h0 : 0 ≤ s.rx_idx) (h99 : s.rx_idx < 99) (hlen : s.rx_buf.length = RX_BUF_SIZE)
    (hb : b ≠ 10 ∧ b ≠ 13) :
    (HAL_UART_RxCpltCallback s USART_TypeDef.USART2 b).rx_buf[s.rx_idx.toNat]? = some b ∧
    (HAL_UART_RxCpltCallback s USART_TypeDef.USART2 b).rx_buf = s.rx_buf.set s.rx_idx.toNat b ∧
    (HAL_UART_RxCpltCallback s USART_TypeDef.USART2 b).rx_idx = s.rx_idx + 1 ∧
    (HAL_UART_RxCpltCallback s USART_TypeDef.USART2 b).command_ready_flag = 1 := by
  rw [callback_data s b hb, if_pos h99]
  refine ⟨?_, rfl, rfl, hflag⟩
  simp only [List.getElem?_set, if_true]
  have : s.rx_idx.toNat < s.rx_buf.length := by
    rw [hlen]
    simp only [RX_BUF_SIZE]
    omega
  simp [this]

/-! ## Results -/

/-- C1: from the reset state, `n ≥ 1` bytes other than `\n` and `\r` followed by one
terminator leave the ready flag set and `rx_buf` holding the first `min n 99` bytes
followed by a NUL at index `min n 99` (the rest of the buffer still zero); later bytes
are dropped, every write made on the way is at an index below `RX_BUF_SIZE`, and the
buffer reads as a null-terminated string of at most 99 bytes. -/
theorem C1_line_handoff (bs : List Nat) (t : Nat) (hn : 1 ≤ bs.length)
    (hbs : ∀ b ∈ bs, b ≠ 10 ∧ b ≠ 13) (ht : t = 10 ∨ t = 13) :
    (rxBytes RxState.reset USART_TypeDef.USART2 (bs ++ [t])).command_ready_flag = 1 ∧
    (rxBytes RxState.reset USART_TypeDef.USART2 (bs ++ [t])).rx_buf
      = bs.take 99 ++ List.replicate (RX_BUF_SIZE - min bs.length 99) 0 ∧
    (rxBytes RxState.reset USART_TypeDef.USART2 (bs ++ [t])).rx_buf.take (min bs.length 99)
      = bs.take 99 ∧
    (rxBytes RxState.reset USART_TypeDef.USART2 (bs ++ [t])).rx_buf[min bs.length 99]? = some 0 ∧
    (∃ line, cstr (rxBytes RxState.reset USART_TypeDef.USART2 (bs ++ [t])).rx_buf = some line ∧
      line.length ≤ 99 ∧ (0 ∉ bs → line = bs.take 99)) ∧
    WritesInBounds (rxBytes RxState.reset USART_TypeDef.USART2 (bs ++ [t])) := by
  obtain ⟨hbuf, -, hflag⟩ := rx_line bs t hn hbs ht
  have hinv := rxBytes_inv USART_TypeDef.USART2 (bs ++ [t]) _ RxInv_reset
  have hk : (bs.take 99).length = min bs.length 99 := by simp [Nat.min_comm]
  refine ⟨hflag, ?_, ?_, ?_, ?_, ?_⟩
  · rw [hbuf, ← List.replicate_succ]
    congr 2
    simp only [RX_BUF_SIZE]
    omega
  · rw [hbuf, ← hk, List.take_left]
  · rw [hbuf, List.getElem?_append_right (by rw [hk]), hk]
    simp
  · rw [hbuf, cstr_append_zero]
    refine ⟨_, rfl, ?_, ?_⟩
    · calc ((bs.take 99).takeWhile _).length ≤ (bs.take 99).length :=
            (List.takeWhile_sublist _).length_le
        _ ≤ 99 := by simp
    · intro h0
      rw [List.takeWhile_eq_self_iff]
      intro c hc
      simp only [ne_eq, decide_not, Bool.not_eq_true', decide_eq_false_iff_not]
      rintro rfl
      exact h0 (List.mem_of_mem_take hc)
  · intro w hw
    obtain ⟨-, -, -, -, hb⟩ := hinv
    have := hb w hw
    simp only [RX_BUF_SIZE] at this ⊢
    omega

/-- Witness of C1: the bytes `A`, `B`, `\n`. -/
theorem C1_line_handoff_witness :
    (rxBytes RxState.reset USART_TypeDef.USART2 ([65, 66] ++ [10])).command_ready_flag = 1 ∧
    (rxBytes RxState.reset USART_TypeDef.USART2 ([65, 66] ++ [10])).rx_buf
      = [65, 66] ++ List.replicate 98 0 :=
  ⟨(C1_line_handoff [65, 66] 10 (by decide) (by decide) (by decide)).1,
   (C1_line_handoff [65, 66] 10 (by decide) (by decide) (by decide)).2.1⟩

/-- C2, as the spec states it, fails: after 99 received bytes the cursor is 99, not below
99, and the terminator that follows is written at index 99. -/
theorem C2_cursor_counterexample :
    (run (System.reset World.ok)
        ((List.replicate 99 65).map (Event.rx USART_TypeDef.USART2))).map
      (fun s => decide (s.rx.rx_idx < 99)) = some false ∧
    (run (System.reset World.ok)
        ((List.replicate 99 65 ++ [10]).map (Event.rx USART_TypeDef.USART2))).map
      (fun s => s.rx.writes.getLast?) = some (some ⟨99, 0, true⟩) := by
  set_option maxRecDepth 100000 in decide

/-- C2, amended: in every state reachable from reset by any interleaving of received
bytes and statements of the main loop's dispatch block, the run is defined and the
cursor satisfies `0 ≤ rx_idx ≤ RX_BUF_SIZE - 1`; a received byte is written at an index
of at most 98 and the NUL terminator at an index of at most 99, the last of `rx_buf`. -/
theorem C2_cursor_bounds (w : World) (es : List Event) :
    ∃ s, run (System.reset w) es = some s ∧ CursorBounds s.rx := by
  obtain ⟨s, hs, -, -, hc⟩ := run_inv es (System.reset w) RxInv_reset
  exact ⟨s, hs, hc⟩
/-- C3: for `r`, `g`, `b` in `0 .. 255` and a bus on which every write succeeds,
`parseCommand` on the line `RGB:r,g,b` performs exactly six bus writes, each a 2-byte
write to the backlight controller, in the order mode1 (`0x00 <- 0x00`), output
(`0x08 <- 0xAA`), mode2 (`0x01 <- 0x00`), red (`0x04 <- r`), green (`0x03 <- g`), blue
(`0x02 <- b`), and then transmits the reply `ACK:RGB` and no other reply (the call hands
over the text, its newline and the literal's NUL).  This holds from any earlier state of
the world, so repeating the command issues the same six writes again. -/
theorem C3_valid_rgb (w : World) (r g b : Nat) (hr : r ≤ 255) (hg : g ≤ 255) (hb : b ≤ 255)
    (hbus : ∀ k, w.i2c_status k = HAL_OK) :
    parseCommand w (bytes "RGB:" ++ dec r ++ bytes "," ++ dec g ++ bytes "," ++ dec b)
      = some { w with
          i2c_log := w.i2c_log ++
            [⟨RGB_ADDRESS, [0x00, 0x00]⟩, ⟨RGB_ADDRESS, [0x08, 0xAA]⟩,
             ⟨RGB_ADDRESS, [0x01, 0x00]⟩, ⟨RGB_ADDRESS, [0x04, r]⟩,
             ⟨RGB_ADDRESS, [0x03, g]⟩, ⟨RGB_ADDRESS, [0x02, b]⟩]
          uart_tx := w.uart_tx ++ (bytes "ACK:RGB\n" ++ [0]) } ∧
    (parseCommand w (bytes "RGB:" ++ dec r ++ bytes "," ++ dec g ++ bytes "," ++ dec b)).bind
        (fun w1 =>
          parseCommand w1 (bytes "RGB:" ++ dec r ++ bytes "," ++ dec g ++ bytes "," ++ dec b))
      = some { w with
          i2c_log := w.i2c_log ++ (rgbWrites r g b ++ rgbWrites r g b)
          uart_tx := w.uart_tx ++ ((bytes "ACK:RGB\n" ++ [0]) ++ (bytes "ACK:RGB\n" ++ [0])) } := by
  have h1 := parseCommand_rgb_ok w r g b hr hg hb hbus
  refine ⟨h1, ?_⟩
  rw [h1, Option.some_bind, parseCommand_rgb_ok]
  · simp [List.append_assoc]
  · exact hr
  · exact hg
  · exact hb
  · exact hbus

/-- Witness of C3: the line `RGB:10,20,30` on a bus that never fails. -/
theorem C3_valid_rgb_witness :
    parseCommand World.ok (bytes "RGB:" ++ dec 10 ++ bytes "," ++ dec 20 ++ bytes "," ++ dec 30)
      = some { World.ok with
          i2c_log := [] ++
            [⟨RGB_ADDRESS, [0x00, 0x00]⟩, ⟨RGB_ADDRESS, [0x08, 0xAA]⟩,
             ⟨RGB_ADDRESS, [0x01, 0x00]⟩, ⟨RGB_ADDRESS, [0x04, 10]⟩,
             ⟨RGB_ADDRESS, [0x03, 20]⟩, ⟨RGB_ADDRESS, [0x02, 30]⟩]
          uart_tx := [] ++ (bytes "ACK:RGB\n" ++ [0]) } :=
  (C3_valid_rgb World.ok 10 20 30 (by decide) (by decide) (by decide) (fun _ => rfl)).1

/-- C4: for every line `RGB:<payload>` whose payload is malformed, that is, cannot be read
as three integers separated by commas (it is not numeric, has fewer than three values,
or the values are not separated by commas), `parseCommand` performs no bus write and
transmits the reply `ERR:RGB parse failed` and nothing else, whatever the bus does. -/
theorem C4_malformed_rgb (w : World) (p : List Nat) (h : ¬ WellFormedRGB p) :
    parseCommand w (bytes "RGB:" ++ p)
      = some { w with uart_tx := w.uart_tx ++ (bytes "ERR:RGB parse failed\n" ++ [0]) } :=
  parseCommand_rgb_malformed w p h

/-- Witness of C4: the payloads `""`, `abc`, `1,2`, `1 2 3` and `1;2;3`. -/
theorem C4_malformed_rgb_witness :
    (parseCommand World.ok (bytes "RGB:" ++ bytes "")).map (fun w => (w.i2c_log, w.uart_tx))
      = some ([], bytes "ERR:RGB parse failed\n" ++ [0]) ∧
    (parseCommand World.ok (bytes "RGB:" ++ bytes "abc")).map (fun w => (w.i2c_log, w.uart_tx))
      = some ([], bytes "ERR:RGB parse failed\n" ++ [0]) ∧
    (parseCommand World.ok (bytes "RGB:" ++ bytes "1,2")).map (fun w => (w.i2c_log, w.uart_tx))
      = some ([], bytes "ERR:RGB parse failed\n" ++ [0]) ∧
    (parseCommand World.ok (bytes "RGB:" ++ bytes "1 2 3")).map (fun w => (w.i2c_log, w.uart_tx))
      = some ([], bytes "ERR:RGB parse failed\n" ++ [0]) ∧
    (parseCommand World.ok (bytes "RGB:" ++ bytes "1;2;3")).map (fun w => (w.i2c_log, w.uart_tx))
      = some ([], bytes "ERR:RGB parse failed\n" ++ [0]) := by
  have key : ∀ p : List Nat, p.count 44 < 2 →
      (parseCommand World.ok (bytes "RGB:" ++ p)).map (fun w => (w.i2c_log, w.uart_tx))
        = some ([], bytes "ERR:RGB parse failed\n" ++ [0]) := by
    intro p hp
    rw [C4_malformed_rgb World.ok p (fun hw => absurd (wellFormed_two_commas p hw) (by omega))]
    rfl
  exact ⟨key _ (by decide), key _ (by decide), key _ (by decide), key _ (by decide),
    key _ (by decide)⟩

/-- C5: on a bus on which every write succeeds, for a text `a` without `|`,
`parseCommand` on `L:a` issues to the display controller exactly the clear command
(`0x80, 0x01`), the set-cursor command for (0,0) (`0x80, 0x80`) and one data write
(`0x40, c`) per character `c` of `a`, in this order, and nothing for row 1; on `L:a|b` it
issues clear, cursor (0,0), the characters of `a`, the set-cursor command for (0,1)
(`0x80, 0xC0`) and the characters of `b`, everything after the first `|`.  In both cases
the reply transmitted is `ACK:L`. -/
theorem C5_display_text (w : World) (hbus : ∀ k, w.i2c_status k = HAL_OK) (a b : List Nat)
    (ha : 124 ∉ a) :
    parseCommand w (bytes "L:" ++ a)
      = some { w with
          i2c_log := w.i2c_log ++ ([⟨LCD_ADDRESS, [0x80, 0x01]⟩, ⟨LCD_ADDRESS, [0x80, 0x80]⟩]
            ++ dataWrites a)
          uart_tx := w.uart_tx ++ (bytes "ACK:L\n" ++ [0]) } ∧
    parseCommand w (bytes "L:" ++ a ++ 124 :: b)
      = some { w with
          i2c_log := w.i2c_log ++ ([⟨LCD_ADDRESS, [0x80, 0x01]⟩, ⟨LCD_ADDRESS, [0x80, 0x80]⟩]
            ++ dataWrites a ++ [⟨LCD_ADDRESS, [0x80, 0xC0]⟩] ++ dataWrites b)
          uart_tx := w.uart_tx ++ (bytes "ACK:L\n" ++ [0]) } :=
  ⟨parseCommand_L_one w hbus a ha, parseCommand_L_two w hbus a b ha⟩

/-- Witness of C5: the lines `L:Hi` and `L:Hi|you|2`. -/
theorem C5_display_text_witness :
    parseCommand World.ok (bytes "L:" ++ bytes "Hi")
      = some { World.ok with
          i2c_log := [] ++ ([⟨LCD_ADDRESS, [0x80, 0x01]⟩, ⟨LCD_ADDRESS, [0x80, 0x80]⟩]
            ++ dataWrites (bytes "Hi"))
          uart_tx := [] ++ (bytes "ACK:L\n" ++ [0]) } ∧
    parseCommand World.ok (bytes "L:" ++ bytes "Hi" ++ 124 :: bytes "you|2")
      = some { World.ok with
          i2c_log := [] ++ ([⟨LCD_ADDRESS, [0x80, 0x01]⟩, ⟨LCD_ADDRESS, [0x80, 0x80]⟩]
            ++ dataWrites (bytes "Hi") ++ [⟨LCD_ADDRESS, [0x80, 0xC0]⟩]
            ++ dataWrites (bytes "you|2"))
          uart_tx := [] ++ (bytes "ACK:L\n" ++ [0]) } :=
  C5_display_text World.ok (fun _ => rfl) (bytes "Hi") (bytes "you|2") (by decide)

/-- C6: for a line without `:`, `parseCommand` transmits `ERR:Invalid format`; for a line
with a `:` whose text before the first `:` is neither `RGB` nor `L`, it transmits
`ERR:Unknown command`.  In both cases it performs no bus write and returns. -/
theorem C6_format_errors (w : World) :
    (∀ line : List Nat, 58 ∉ line →
      parseCommand w line
        = some { w with uart_tx := w.uart_tx ++ (bytes "ERR:Invalid format\n" ++ [0]) }) ∧
    (∀ ty rest : List Nat, 58 ∉ ty → ty ≠ bytes "RGB" → ty ≠ bytes "L" →
      parseCommand w (ty ++ 58 :: rest)
        = some { w with uart_tx := w.uart_tx ++ (bytes "ERR:Unknown command\n" ++ [0]) }) :=
  ⟨fun line h => parseCommand_no_colon w line h,
   fun ty rest h h1 h2 => parseCommand_unknown w ty rest h h1 h2⟩

/-- Witness of C6: the lines `HELLO` and `B:1`. -/
theorem C6_format_errors_witness :
    parseCommand World.ok (bytes "HELLO")
      = some { World.ok with uart_tx := [] ++ (bytes "ERR:Invalid format\n" ++ [0]) } ∧
    parseCommand World.ok (bytes "B" ++ 58 :: bytes "1")
      = some { World.ok with uart_tx := [] ++ (bytes "ERR:Unknown command\n" ++ [0]) } :=
  ⟨(C6_format_errors World.ok).1 (bytes "HELLO") (by decide),
   (C6_format_errors World.ok).2 (bytes "B") (bytes "1") (by decide) (by decide) (by decide)⟩

/-- C7, evaluated: the bytes of `RGB:10,20,30\n` received from reset set the ready
flag; the dispatch that follows reads 10, 20, 30, issues the six backlight writes with
these values, and hands 9 bytes to the UART: the 8 bytes of `ACK:RGB\n` followed by a
NUL byte. -/
theorem C7_end_to_end_reply :
    (rxBytes RxState.reset USART_TypeDef.USART2 (bytes "RGB:10,20,30\n")).command_ready_flag = 1 ∧
    sscanf_d_d_d (bytes "10,20,30") = [10, 20, 30] ∧
    (run (System.reset World.ok)
        ((bytes "RGB:10,20,30\n").map (Event.rx USART_TypeDef.USART2)
          ++ List.replicate 5 Event.main)).map
      (fun s => (s.world.i2c_log, s.world.uart_tx, s.rx.command_ready_flag))
      = some (rgbWrites 10 20 30, bytes "ACK:RGB\n" ++ [0], 0) ∧
    (bytes "ACK:RGB\n" ++ [0]).length = 9 := by
  decide

/-- C8: `lcd_set_rgb` short-circuits.  If the first `k - 1` register writes succeed and
the `k`-th (`1 ≤ k ≤ 6`) fails with status `s`, exactly the first `k` writes of the
fixed order (mode1, output, mode2, red, green, blue) are attempted, once each, and `s`
is returned; the function returns `HAL_OK` only when all six writes succeeded. -/
theorem C8_set_rgb_short_circuit (w : World) (r g b : Nat) :
    (∀ (k : Nat) (s : HAL_StatusTypeDef), 1 ≤ k → k ≤ 6 →
      (∀ j, j < k - 1 → w.i2c_status (w.i2c_log.length + j) = HAL_OK) →
      w.i2c_status (w.i2c_log.length + (k - 1)) = s → s ≠ HAL_OK →
      lcd_set_rgb w r g b
        = (s, { w with i2c_log := w.i2c_log ++ (rgbWrites r g b).take k })) ∧
    ((lcd_set_rgb w r g b).1 = HAL_OK →
      ∀ j, j < 6 → w.i2c_status (w.i2c_log.length + j) = HAL_OK) :=
  ⟨fun k s hk1 hk6 hok hfail hs => lcd_set_rgb_fail w r g b k s hk1 hk6 hok hfail hs,
   lcd_set_rgb_ok_only w r g b⟩

/-- Witness of C8: the third write times out; the blue, green and red registers are
never written. -/
theorem C8_set_rgb_short_circuit_witness :
    lcd_set_rgb (World.failingAt 2 HAL_TIMEOUT) 10 20 30
      = (HAL_TIMEOUT, { World.failingAt 2 HAL_TIMEOUT with
          i2c_log := [⟨RGB_ADDRESS, [0x00, 0x00]⟩, ⟨RGB_ADDRESS, [0x08, 0xAA]⟩,
            ⟨RGB_ADDRESS, [0x01, 0x00]⟩] }) :=
  (C8_set_rgb_short_circuit (World.failingAt 2 HAL_TIMEOUT) 10 20 30).1 3 HAL_TIMEOUT
    (by decide) (by decide) (by intro j hj; simp [World.failingAt]; omega)
    (by simp [World.failingAt]) (by decide)

/-- C9: `lcd_init`.  When every transaction succeeds it issues exactly four 2-byte
transactions to the display controller, control byte `0x80`, payloads `0x28`, `0x0C`,
`0x01`, `0x06` in this order, and returns `HAL_OK`; when the `j`-th (`1 ≤ j ≤ 4`) is the
first to fail, with status `s`, it issues exactly the first `j` and returns `s`. -/
theorem C9_lcd_init_sequence (w : World) :
    ((∀ i, i < 4 → w.i2c_status (w.i2c_log.length + i) = HAL_OK) →
      lcd_init w = (HAL_OK, { w with i2c_log := w.i2c_log ++
        [⟨LCD_ADDRESS, [0x80, 0x28]⟩, ⟨LCD_ADDRESS, [0x80, 0x0C]⟩,
         ⟨LCD_ADDRESS, [0x80, 0x01]⟩, ⟨LCD_ADDRESS, [0x80, 0x06]⟩] })) ∧
    (∀ (j : Nat) (s : HAL_StatusTypeDef), 1 ≤ j → j ≤ 4 →
      (∀ i, i < j - 1 → w.i2c_status (w.i2c_log.length + i) = HAL_OK) →
      w.i2c_status (w.i2c_log.length + (j - 1)) = s → s ≠ HAL_OK →
      lcd_init w = (s, { w with i2c_log := w.i2c_log ++ initWrites.take j })) :=
  ⟨fun hok => lcd_init_ok w hok,
   fun j s hj1 hj4 hok hfail hs => lcd_init_fail w j s hj1 hj4 hok hfail hs⟩

/-- Witness of C9: a bus that never fails, and a bus whose second transaction is busy. -/
theorem C9_lcd_init_sequence_witness :
    lcd_init World.ok = (HAL_OK, { World.ok with i2c_log :=
        [⟨LCD_ADDRESS, [0x80, 0x28]⟩, ⟨LCD_ADDRESS, [0x80, 0x0C]⟩,
         ⟨LCD_ADDRESS, [0x80, 0x01]⟩, ⟨LCD_ADDRESS, [0x80, 0x06]⟩] }) ∧
    lcd_init (World.failingAt 1 HAL_BUSY) = (HAL_BUSY, { World.failingAt 1 HAL_BUSY with
        i2c_log := [⟨LCD_ADDRESS, [0x80, 0x28]⟩, ⟨LCD_ADDRESS, [0x80, 0x0C]⟩] }) :=
  ⟨(C9_lcd_init_sequence World.ok).1 (by intro i _; rfl),
   (C9_lcd_init_sequence (World.failingAt 1 HAL_BUSY)).2 2 HAL_BUSY (by decide) (by decide)
     (by intro i hi; simp [World.failingAt]; omega) (by simp [World.failingAt]) (by decide)⟩

/-- C10, at the failing input: for row `-1` the function `lcd_set_cursor` does not clamp;
it reads `row_offsets[-1]`, outside the array, and the model has no result. -/
theorem C10_set_cursor_negative_row : (lcd_set_cursor World.ok 0 (-1)).isNone = true := rfl

/-- C11: the receive callback never reads `command_ready_flag`: its effect on `rx_buf`
and `rx_idx` is the same whatever the flag holds.  So in a state with the flag set, a
NUL at `rx_buf[rx_idx]` and `rx_idx < 99`, a further byte other than `\n` and `\r`
is stored over that NUL and advances the cursor, the flag staying set; the bytes
`AB\nCD` received from reset, with no dispatch in between, leave the flag set and the
buffer reading `ABCD`, not the completed line `AB`. -/
theorem C11_pending_line_unprotected :
    (∀ (s : RxState) (i : USART_TypeDef) (c f : Nat),
      (HAL_UART_RxCpltCallback { s with command_ready_flag := f } i c).rx_buf
        = (HAL_UART_RxCpltCallback s i c).rx_buf ∧
      (HAL_UART_RxCpltCallback { s with command_ready_flag := f } i c).rx_idx
        = (HAL_UART_RxCpltCallback s i c).rx_idx) ∧
    (∀ (s : RxState) (b : Nat), s.command_ready_flag = 1 → 0 ≤ s.rx_idx → s.rx_idx < 99 →
      s.rx_buf.length = RX_BUF_SIZE → s.rx_buf[s.rx_idx.toNat]? = some 0 →
      b ≠ 10 → b ≠ 13 →
      (HAL_UART_RxCpltCallback s USART_TypeDef.USART2 b).rx_buf[s.rx_idx.toNat]? = some b ∧
      (HAL_UART_RxCpltCallback s USART_TypeDef.USART2 b).rx_buf
        = s.rx_buf.set s.rx_idx.toNat b ∧
      (HAL_UART_RxCpltCallback s USART_TypeDef.USART2 b).rx_idx = s.rx_idx + 1 ∧
      (HAL_UART_RxCpltCallback s USART_TypeDef.USART2 b).command_ready_flag = 1) ∧
    ((rxBytes RxState.reset USART_TypeDef.USART2 (bytes "AB\nCD")).command_ready_flag = 1 ∧
      cstr (rxBytes RxState.reset USART_TypeDef.USART2 (bytes "AB\nCD")).rx_buf
        = some (bytes "ABCD") ∧
      cstr (rxBytes RxState.reset USART_TypeDef.USART2 (bytes "AB\n")).rx_buf
        = some (bytes "AB")) :=
  ⟨callback_ignores_flag,
   fun s b hflag h0 h99 hlen _ hb1 hb2 => callback_overwrites_nul s b hflag h0 h99 hlen ⟨hb1, hb2⟩,
   by decide⟩

/-- Witness of C11: the state after `AB\n` (flag set, cursor 2, NUL at index 2) receives
`C`. -/
theorem C11_pending_line_unprotected_witness :
    (HAL_UART_RxCpltCallback (rxBytes RxState.reset USART_TypeDef.USART2 (bytes "AB\n"))
        USART_TypeDef.USART2 67).rx_buf[2]? = some 67 ∧
    (HAL_UART_RxCpltCallback (rxBytes RxState.reset USART_TypeDef.USART2 (bytes "AB\n"))
        USART_TypeDef.USART2 67).rx_idx = 3 ∧
    (HAL_UART_RxCpltCallback (rxBytes RxState.reset USART_TypeDef.USART2 (bytes "AB\n"))
        USART_TypeDef.USART2 67).command_ready_flag = 1 :=
  have h := C11_pending_line_unprotected.2.1
    (rxBytes RxState.reset USART_TypeDef.USART2 (bytes "AB\n")) 67
    (by decide) (by decide) (by decide) (by decide) (by decide) (by decide) (by decide)
  ⟨h.1, h.2.2.1, h.2.2.2⟩

/-- C12: values outside `0 .. 255` wrap instead of being rejected.  For all `int` values
`x`, `y`, `z`, negative ones and ones above 255 included, and a bus on which every
write succeeds, `parseCommand` on the line `RGB:x,y,z` gives no error reply: it performs
the six backlight writes with red `x mod 256`, green `y mod 256`, blue `z mod 256` (the
`uint8_t` casts) and transmits the reply `ACK:RGB`. -/
theorem C12_rgb_values_wrap (w : World) (x y z : Int) (_hx : InIntRange x) (_hy : InIntRange y)
    (_hz : InIntRange z) (hbus : ∀ k, w.i2c_status k = HAL_OK) :
    parseCommand w (bytes "RGB:" ++ decInt x ++ bytes "," ++ decInt y ++ bytes "," ++ decInt z)
      = some { w with
          i2c_log := w.i2c_log ++
            [⟨RGB_ADDRESS, [0x00, 0x00]⟩, ⟨RGB_ADDRESS, [0x08, 0xAA]⟩,
             ⟨RGB_ADDRESS, [0x01, 0x00]⟩, ⟨RGB_ADDRESS, [0x04, (x % 256).toNat]⟩,
             ⟨RGB_ADDRESS, [0x03, (y % 256).toNat]⟩, ⟨RGB_ADDRESS, [0x02, (z % 256).toNat]⟩]
          uart_tx := w.uart_tx ++ (bytes "ACK:RGB\n" ++ [0]) } :=
  parseCommand_rgb_wrap w x y z hbus

/-- Witness of C12: the line `RGB:256,-1,300` writes red 0, green 255, blue 44. -/
theorem C12_rgb_values_wrap_witness :
    bytes "RGB:" ++ decInt 256 ++ bytes "," ++ decInt (-1) ++ bytes "," ++ decInt 300
      = bytes "RGB:256,-1,300" ∧
    parseCommand World.ok
        (bytes "RGB:" ++ decInt 256 ++ bytes "," ++ decInt (-1) ++ bytes "," ++ decInt 300)
      = some { World.ok with
          i2c_log := [] ++
            [⟨RGB_ADDRESS, [0x00, 0x00]⟩, ⟨RGB_ADDRESS, [0x08, 0xAA]⟩,
             ⟨RGB_ADDRESS, [0x01, 0x00]⟩, ⟨RGB_ADDRESS, [0x04, 0]⟩,
             ⟨RGB_ADDRESS, [0x03, 255]⟩, ⟨RGB_ADDRESS, [0x02, 44]⟩]
          uart_tx := [] ++ (bytes "ACK:RGB\n" ++ [0]) } :=
  ⟨by decide,
   C12_rgb_values_wrap World.ok 256 (-1) 300 ⟨by decide, by decide⟩ ⟨by decide, by decide⟩
     ⟨by decide, by decide⟩ (fun _ => rfl)⟩

end Firmware
